import Mathlib

/-!
Shallow embedding of the checkpoint-inspection core of `checkpointctl`
(file `container.go`): the engine classifier and identity extractor,
the report assembler, the filesystem size calculator and the
path-shortening helper.  Go strings are modelled as Lean `String`
(sequences of characters), Go `int64` values and `time.Time` instants
as `Int` (an instant is its nanosecond epoch count), Go `map` lookup
as a total function returning `""` for absent keys, and fallible calls
as `Except String`.  External collaborators (RFC3339 time formatting,
JSON unmarshalling, human-readable byte formatting, file reading) are
parameters of the embedded functions.
-/

namespace Checkpointctl

/-- `containerMetadata` from `container.go`: the structure decoded from the
CRI-O metadata annotation's JSON blob. -/
structure ContainerMetadata where
  name : String
  attempt : Nat
deriving Repr, DecidableEq

/-- `containerInfo` from `container.go`: the normalized container identity. -/
structure ContainerInfo where
  name : String
  ip : String
  mac : String
  created : String
  engine : String
deriving Repr, DecidableEq

/-- `metadata.ContainerConfig` (external, read-only input): the fields the
core reads.  `createdTime` is a `time.Time`, modelled as its nanosecond
epoch count. -/
structure ContainerConfig where
  name : String
  id : String
  rootfsImageName : String
  ociRuntime : String
  createdTime : Int
deriving Repr, DecidableEq

/-- `spec.Spec` (external, read-only input): only the annotation map is
read by the classifier.  Go map lookup of an absent key yields `""`, so
the map is modelled as a total function. -/
structure RuntimeSpec where
  annots : String → String

/-- `metadata.ContainerdStatus` (external): the containerd status record,
carrying a creation timestamp in nanoseconds since the epoch. -/
structure ContainerdStatus where
  createdAt : Int
deriving Repr, DecidableEq

/-- The three values returned by `metadata.ReadContainerCheckpointStatusFile`:
the (possibly absent) status record, a second value the caller discards,
and the read error.  The source discards the second and third with `_, _`. -/
structure StatusReadResult where
  status : Option ContainerdStatus
  raw : String
  err : Option String

/-- `getPodmanInfo` from `container.go`.  `fmtRFC3339` stands for Go's
`time.Time.Format(time.RFC3339)` applied to the instant. -/
def getPodmanInfo (fmtRFC3339 : Int → String) (containerConfig : ContainerConfig)
    (_specDump : RuntimeSpec) : ContainerInfo :=
  { name := containerConfig.name
    ip := ""
    mac := ""
    created := fmtRFC3339 containerConfig.createdTime
    engine := "Podman" }

/-- `getContainerdInfo` from `container.go`.  Go's
`time.Unix(0, createdAt)` is the instant whose nanosecond count is
`createdAt`, so formatting it is `fmtRFC3339 createdAt`. -/
def getContainerdInfo (fmtRFC3339 : Int → String) (containerdStatus : ContainerdStatus)
    (specDump : RuntimeSpec) : ContainerInfo :=
  { name := specDump.annots "io.kubernetes.cri.container-name"
    ip := ""
    mac := ""
    created := fmtRFC3339 containerdStatus.createdAt
    engine := "containerd" }

/-- `getCRIOInfo` from `container.go`.  `unmarshalMeta` stands for
`json.Unmarshal` into a `containerMetadata` value; on failure the source
wraps the error with `failed to read io.kubernetes.cri-o.Metadata: `. -/
def getCRIOInfo (unmarshalMeta : String → Except String ContainerMetadata)
    (_containerConfig : ContainerConfig) (specDump : RuntimeSpec) :
    Except String ContainerInfo :=
  match unmarshalMeta (specDump.annots "io.kubernetes.cri-o.Metadata") with
  | .error e => .error ("failed to read io.kubernetes.cri-o.Metadata: " ++ e)
  | .ok cm =>
      .ok { ip := specDump.annots "io.kubernetes.cri-o.IP.0"
            name := cm.name
            mac := ""
            created := specDump.annots "io.kubernetes.cri-o.Created"
            engine := "CRI-O" }

/-- The classification switch of `showContainerCheckpoint` (lines 78-94 of
`container.go`): dispatch on the `io.container.manager` annotation, with
the containerd status file consulted in the default branch (its read error
discarded) and the CRI-O extraction error wrapped by the `if err != nil`
check that follows the switch. -/
def classifyContainer (fmtRFC3339 : Int → String)
    (unmarshalMeta : String → Except String ContainerMetadata)
    (containerConfig : ContainerConfig) (specDump : RuntimeSpec)
    (statusRead : StatusReadResult) : Except String ContainerInfo :=
  let m := specDump.annots "io.container.manager"
  if m = "libpod" then
    .ok (getPodmanInfo fmtRFC3339 containerConfig specDump)
  else if m = "cri-o" then
    match getCRIOInfo unmarshalMeta containerConfig specDump with
    | .error e => .error ("getting container checkpoint information failed: " ++ e)
    | .ok ci => .ok ci
  else
    match statusRead.status with
    | none => .error ("unknown container manager found: " ++ m)
    | some containerdStatus =>
        .ok (getContainerdInfo fmtRFC3339 containerdStatus specDump)

/-- The ID cell of the report row (lines 109-113 of `container.go`): the
ID truncated to its first 12 characters when longer, otherwise whole. -/
def idCell (id : String) : String :=
  if id.length > 12 then id.take 12 else id

/-- The header/row assembly of `showContainerCheckpoint` (lines 97-143 of
`container.go`): base columns, then `IP` and `MAC` when the identity
fields are non-empty, then the mandatory `CHKPT Size` column, then
`Root Fs Diff Size` when `os.Lstat` on the root-fs-diff artifact succeeds
(`rootFsDiffLstat = some size`) with a non-zero size.  `byteToString`
stands for `metadata.ByteToString`. -/
def buildReport (byteToString : Int → String) (ci : ContainerInfo)
    (containerConfig : ContainerConfig) (chkptSize : Int)
    (rootFsDiffLstat : Option Int) : List String × List String :=
  let header := ["Container", "Image", "ID", "Runtime", "Created", "Engine"]
  let row := [ci.name, containerConfig.rootfsImageName, idCell containerConfig.id,
              containerConfig.ociRuntime, ci.created, ci.engine]
  let header := if ci.ip ≠ "" then header ++ ["IP"] else header
  let row := if ci.ip ≠ "" then row ++ [ci.ip] else row
  let header := if ci.mac ≠ "" then header ++ ["MAC"] else header
  let row := if ci.mac ≠ "" then row ++ [ci.mac] else row
  let header := header ++ ["CHKPT Size"]
  let row := row ++ [byteToString chkptSize]
  match rootFsDiffLstat with
  | some sz =>
      if sz ≠ 0 then (header ++ ["Root Fs Diff Size"], row ++ [byteToString sz])
      else (header, row)
  | none => (header, row)

/-- A directory subtree as `filepath.Walk` observes it: regular files with
their byte size, directories with their entries in visiting order, and
entries at which the walk's `lstat`/read fails, causing the walk callback
to receive a non-nil error. -/
inductive FsTree where
  | file (size : Int)
  | errEntry (msg : String)
  | dir (entries : List FsTree)
deriving Repr

mutual

/-- `dirSize` from `container.go` on a subtree: `filepath.Walk` visits the
root and every entry depth-first; the callback adds `info.Size()` for
every non-directory entry and aborts the whole walk on the first error. -/
def dirSize : FsTree → Except String Int
  | .file size => .ok size
  | .errEntry msg => .error msg
  | .dir entries => dirSizeList entries

/-- The walk over a directory's entries, in order, accumulating sizes and
stopping at the first error (the directory itself contributes zero,
since `info.IsDir()` holds for it). -/
def dirSizeList : List FsTree → Except String Int
  | [] => .ok 0
  | t :: ts =>
      match dirSize t with
      | .error msg => .error msg
      | .ok s =>
          match dirSizeList ts with
          | .error msg => .error msg
          | .ok s2 => .ok (s + s2)

end

mutual

/-- Specification-side total: the sum of the sizes of the non-directory
entries of a subtree (directories contribute zero). -/
def totalSize : FsTree → Int
  | .file size => size
  | .errEntry _ => 0
  | .dir entries => totalSizeList entries

/-- Sum of `totalSize` over a list of subtrees. -/
def totalSizeList : List FsTree → Int
  | [] => 0
  | t :: ts => totalSize t + totalSizeList ts

end

mutual

/-- Whether a subtree contains no entry at which the traversal fails. -/
def cleanTree : FsTree → Bool
  | .file _ => true
  | .errEntry _ => false
  | .dir entries => cleanTreeList entries

/-- `cleanTree` over a list of subtrees. -/
def cleanTreeList : List FsTree → Bool
  | [] => true
  | t :: ts => cleanTree t && cleanTreeList ts

end

/-- Go's `strings.Split(s, "/")` on the character list of `s`: the
substrings between consecutive separators, empties included;
splitting the empty string yields `[""]`. -/
def splitSlash : List Char → List (List Char)
  | [] => [[]]
  | c :: cs =>
      if c = '/' then [] :: splitSlash cs
      else
        match splitSlash cs with
        | [] => [[c]]
        | p :: ps => (c :: p) :: ps

/-- Go's `strings.Join(parts, "/")`: the parts interleaved with the
separator. -/
def joinSlash : List (List Char) → List Char
  | [] => []
  | [p] => p
  | p :: ps => p ++ '/' :: joinSlash ps

/-- The component loop of Go's `path/filepath.Clean` (unix): skip empty
and `.` components; on `..` pop the last kept component unless it is a
kept `..` (push `..` when nothing can be popped and the path is not
rooted, drop it when rooted); keep every other component.  `out` holds
the kept components in reverse. -/
def cleanLoop (rooted : Bool) : List (List Char) → List (List Char) → List (List Char)
  | out, [] => out.reverse
  | out, c :: cs =>
      if c = [] ∨ c = ['.'] then cleanLoop rooted out cs
      else if c = ['.', '.'] then
        match out with
        | p :: rest =>
            if p = ['.', '.'] then cleanLoop rooted (c :: out) cs
            else cleanLoop rooted rest cs
        | [] =>
            if rooted then cleanLoop rooted [] cs
            else cleanLoop rooted [c] cs
      else cleanLoop rooted (c :: out) cs

/-- Go's `path/filepath.Clean` (unix separator) on a character list:
shortest equivalent lexical path. -/
def cleanPath (cs : List Char) : List Char :=
  match cs with
  | [] => ['.']
  | c :: _ =>
      let rooted := c = '/'
      let out := cleanLoop rooted [] (splitSlash cs)
      if rooted then
        match out with
        | [] => ['/']
        | os => '/' :: joinSlash os
      else
        match out with
        | [] => ['.']
        | os => joinSlash os

/-- Go's `path/filepath.Join` on character lists: join everything from
the first non-empty element on with the separator, then `Clean`; all
elements empty yields the empty path. -/
def filepathJoin : List (List Char) → List Char
  | [] => []
  | e :: es => if e = [] then filepathJoin es else cleanPath (joinSlash (e :: es))

/-- `shortenPath` from `container.go`: split the source path on the
separator; with two or fewer parts return it unmodified, otherwise
`filepath.Join("..", filepath.Join(parts[len(parts)-2:]...))`. -/
def shortenPath (path : String) : String :=
  let parts := splitSlash path.toList
  if parts.length ≤ 2 then path
  else String.mk (filepathJoin [['.', '.'], filepathJoin (parts.drop (parts.length - 2))])

/-- The per-checkpoint-directory inputs of `showContainerCheckpoint`:
the results of the three metadata reads, the subtree rooted at the
checkpoint subdirectory (for `getCheckpointSize`), and the `os.Lstat`
result for the root-fs-diff artifact (`none` when `Lstat` errors,
otherwise the reported size). -/
structure CheckpointData where
  configRead : Except String ContainerConfig
  specRead : Except String RuntimeSpec
  statusRead : StatusReadResult
  checkpointSubtree : FsTree
  rootFsDiffLstat : Option Int

/-- `getCheckpointSize` from `container.go`: `dirSize` of the checkpoint
subdirectory (`filepath.Join(path, metadata.CheckpointDirectory)`). -/
def getCheckpointSize (d : CheckpointData) : Except String Int :=
  dirSize d.checkpointSubtree

/-- The fatal-path pipeline of `showContainerCheckpoint` up to the hand-off
of the base report to the table writer: load config and spec (aborting on
error), classify the engine and extract the identity, compute the
checkpoint size (aborting on error), and assemble the header/row pair. -/
def showContainerCheckpoint (fmtRFC3339 : Int → String)
    (unmarshalMeta : String → Except String ContainerMetadata)
    (byteToString : Int → String) (d : CheckpointData) :
    Except String (List String × List String) :=
  match d.configRead with
  | .error e => .error e
  | .ok containerConfig =>
      match d.specRead with
      | .error e => .error e
      | .ok specDump =>
          match classifyContainer fmtRFC3339 unmarshalMeta containerConfig specDump
              d.statusRead with
          | .error e => .error e
          | .ok ci =>
              match getCheckpointSize d with
              | .error e => .error e
              | .ok size =>
                  .ok (buildReport byteToString ci containerConfig size d.rootFsDiffLstat)

/-! ### Concrete fixtures used by the witnesses -/

/-- A sample container config. -/
def sampleConfig : ContainerConfig :=
  { name := "web"
    id := "0123456789abcdef"
    rootfsImageName := "quay.io/test/img"
    ociRuntime := "runc"
    createdTime := 1700000000000000000 }

/-- A sample RFC3339 formatter stand-in. -/
def fmtSample : Int → String := fun n => "T" ++ toString n

/-- A sample JSON unmarshaller for the CRI-O metadata blob: accepts one
well-formed blob (written here as a marker string), rejects everything
else. -/
def umSample : String → Except String ContainerMetadata := fun s =>
  if s = "well-formed-metadata-blob" then .ok { name := "web", attempt := 0 }
  else .error "invalid character"

/-- A spec dump carrying the Podman discriminator. -/
def podmanSpec : RuntimeSpec :=
  { annots := fun k => if k = "io.container.manager" then "libpod" else "" }

/-- A spec dump carrying the CRI-O discriminator and CRI-O annotations. -/
def crioSpec : RuntimeSpec :=
  { annots := fun k =>
      if k = "io.container.manager" then "cri-o"
      else if k = "io.kubernetes.cri-o.Metadata" then "well-formed-metadata-blob"
      else if k = "io.kubernetes.cri-o.IP.0" then "10.0.0.5"
      else if k = "io.kubernetes.cri-o.Created" then "2023-11-14T22:13:20.000000000Z"
      else "" }

/-- A spec dump carrying a CRI-O discriminator but a malformed metadata
blob. -/
def crioBadSpec : RuntimeSpec :=
  { annots := fun k =>
      if k = "io.container.manager" then "cri-o"
      else if k = "io.kubernetes.cri-o.Metadata" then "not json"
      else "" }

/-- A spec dump with no recognized discriminator, as containerd leaves it. -/
def containerdSpec : RuntimeSpec :=
  { annots := fun k =>
      if k = "io.kubernetes.cri.container-name" then "web"
      else "" }

/-- A status read that found nothing. -/
def noStatus : StatusReadResult := { status := none, raw := "", err := some "open: no such file" }

/-- A status read that found a containerd status record. -/
def someStatus : StatusReadResult :=
  { status := some { createdAt := 1700000000000000000 }, raw := "", err := none }

/-! ### Claim theorems -/

/-- C1: for every checkpoint whose config and spec load successfully, the
classifier returns an identity whose engine matches the discriminator
annotation and whose name/created come from the per-engine source fields:
for `libpod`, name = config.Name, created = RFC3339(config.CreatedTime),
engine = Podman; for `cri-o`, name from the decoded metadata blob, ip from
the `io.kubernetes.cri-o.IP.0` annotation, created taken verbatim from the
`io.kubernetes.cri-o.Created` annotation, engine = CRI-O; otherwise, with
a containerd status record present, name from the
`io.kubernetes.cri.container-name` annotation, created =
RFC3339(status.CreatedAt), engine = containerd. -/
theorem classifyContainer_engine_identity (fmtRFC3339 : Int → String)
    (unmarshalMeta : String → Except String ContainerMetadata)
    (cfg : ContainerConfig) (sd : RuntimeSpec) (st : StatusReadResult) :
    (sd.annots "io.container.manager" = "libpod" →
      classifyContainer fmtRFC3339 unmarshalMeta cfg sd st =
        .ok { name := cfg.name, ip := "", mac := "",
              created := fmtRFC3339 cfg.createdTime, engine := "Podman" }) ∧
    (∀ cm : ContainerMetadata, sd.annots "io.container.manager" = "cri-o" →
      unmarshalMeta (sd.annots "io.kubernetes.cri-o.Metadata") = .ok cm →
      classifyContainer fmtRFC3339 unmarshalMeta cfg sd st =
        .ok { name := cm.name, ip := sd.annots "io.kubernetes.cri-o.IP.0", mac := "",
              created := sd.annots "io.kubernetes.cri-o.Created", engine := "CRI-O" }) ∧
    (∀ cs : ContainerdStatus, sd.annots "io.container.manager" ≠ "libpod" →
      sd.annots "io.container.manager" ≠ "cri-o" →
      st.status = some cs →
      classifyContainer fmtRFC3339 unmarshalMeta cfg sd st =
        .ok { name := sd.annots "io.kubernetes.cri.container-name", ip := "", mac := "",
              created := fmtRFC3339 cs.createdAt, engine := "containerd" }) := by
  refine ⟨?_, ?_, ?_⟩
  · intro h
    simp [classifyContainer, getPodmanInfo, h]
  · intro cm h hu
    simp [classifyContainer, getCRIOInfo, h, hu]
  · intro cs h1 h2 hst
    simp [classifyContainer, getContainerdInfo, h1, h2, hst]

/-- Witness for C1: the three branches at concrete fixtures. -/
theorem classifyContainer_engine_identity_witness :
    (classifyContainer fmtSample umSample sampleConfig podmanSpec noStatus =
      .ok { name := sampleConfig.name, ip := "", mac := "",
            created := fmtSample sampleConfig.createdTime, engine := "Podman" }) ∧
    (classifyContainer fmtSample umSample sampleConfig crioSpec noStatus =
      .ok { name := "web", ip := crioSpec.annots "io.kubernetes.cri-o.IP.0", mac := "",
            created := crioSpec.annots "io.kubernetes.cri-o.Created", engine := "CRI-O" }) ∧
    (classifyContainer fmtSample umSample sampleConfig containerdSpec someStatus =
      .ok { name := containerdSpec.annots "io.kubernetes.cri.container-name", ip := "",
            mac := "", created := fmtSample 1700000000000000000, engine := "containerd" }) := by
  refine ⟨?_, ?_, ?_⟩
  · exact (classifyContainer_engine_identity fmtSample umSample sampleConfig podmanSpec
      noStatus).1 (by decide)
  · exact (classifyContainer_engine_identity fmtSample umSample sampleConfig crioSpec
      noStatus).2.1 { name := "web", attempt := 0 } (by decide) rfl
  · exact (classifyContainer_engine_identity fmtSample umSample sampleConfig containerdSpec
      someStatus).2.2 { createdAt := 1700000000000000000 } (by decide) (by decide) rfl

/-- C2: when the discriminator is neither `libpod` nor `cri-o` and no
containerd status record loads, the whole inspection fails with an
"unknown container manager" error carrying the literal discriminator
value, and no report is produced. -/
theorem showContainerCheckpoint_unknown_manager (fmtRFC3339 : Int → String)
    (unmarshalMeta : String → Except String ContainerMetadata)
    (byteToString : Int → String) (d : CheckpointData)
    (cfg : ContainerConfig) (sd : RuntimeSpec)
    (hc : d.configRead = .ok cfg) (hs : d.specRead = .ok sd)
    (h1 : sd.annots "io.container.manager" ≠ "libpod")
    (h2 : sd.annots "io.container.manager" ≠ "cri-o")
    (hst : d.statusRead.status = none) :
    showContainerCheckpoint fmtRFC3339 unmarshalMeta byteToString d =
      .error ("unknown container manager found: " ++ sd.annots "io.container.manager") := by
  simp [showContainerCheckpoint, hc, hs, classifyContainer, h1, h2, hst]

/-- Witness for C2: a checkpoint with an empty discriminator and no
containerd status record fails with the classification error. -/
theorem showContainerCheckpoint_unknown_manager_witness :
    showContainerCheckpoint fmtSample umSample toString
      { configRead := .ok sampleConfig
        specRead := .ok { annots := fun _ => "" }
        statusRead := noStatus
        checkpointSubtree := .dir []
        rootFsDiffLstat := none } =
      .error ("unknown container manager found: " ++ "") :=
  showContainerCheckpoint_unknown_manager fmtSample umSample toString _
    sampleConfig { annots := fun _ => "" } rfl rfl (by decide) (by decide) rfl

/-- C3: when the checkpoint is classified as CRI-O and the metadata
annotation does not decode, the extractor fails with the wrapped
"failed to read io.kubernetes.cri-o.Metadata" error, and the classifier
propagates it (wrapped once more) instead of producing an identity or
falling back to another engine. -/
theorem getCRIOInfo_metadata_parse_error (fmtRFC3339 : Int → String)
    (unmarshalMeta : String → Except String ContainerMetadata)
    (cfg : ContainerConfig) (sd : RuntimeSpec) (st : StatusReadResult) (e : String)
    (hm : sd.annots "io.container.manager" = "cri-o")
    (hu : unmarshalMeta (sd.annots "io.kubernetes.cri-o.Metadata") = .error e) :
    getCRIOInfo unmarshalMeta cfg sd =
      .error ("failed to read io.kubernetes.cri-o.Metadata: " ++ e) ∧
    classifyContainer fmtRFC3339 unmarshalMeta cfg sd st =
      .error ("getting container checkpoint information failed: " ++
        ("failed to read io.kubernetes.cri-o.Metadata: " ++ e)) := by
  constructor
  · simp [getCRIOInfo, hu]
  · simp [classifyContainer, getCRIOInfo, hm, hu]

/-- Witness for C3: the malformed-metadata fixture fails with the wrapped
parse error. -/
theorem getCRIOInfo_metadata_parse_error_witness :
    getCRIOInfo umSample sampleConfig crioBadSpec =
      .error ("failed to read io.kubernetes.cri-o.Metadata: " ++ "invalid character") ∧
    classifyContainer fmtSample umSample sampleConfig crioBadSpec noStatus =
      .error ("getting container checkpoint information failed: " ++
        ("failed to read io.kubernetes.cri-o.Metadata: " ++ "invalid character")) :=
  getCRIOInfo_metadata_parse_error fmtSample umSample sampleConfig crioBadSpec noStatus
    "invalid character" (by decide) rfl

/-- C10: in the fallback branch the error returned by the status-file
reader is discarded: for an unrecognized discriminator the outcome depends
only on whether the status record is non-nil — present means containerd,
absent means the unknown-manager error — and the read error never appears
in the result. -/
theorem classifyContainer_discards_status_read_error (fmtRFC3339 : Int → String)
    (unmarshalMeta : String → Except String ContainerMetadata)
    (cfg : ContainerConfig) (sd : RuntimeSpec)
    (st : Option ContainerdStatus) (raw : String) (errv : Option String)
    (h1 : sd.annots "io.container.manager" ≠ "libpod")
    (h2 : sd.annots "io.container.manager" ≠ "cri-o") :
    classifyContainer fmtRFC3339 unmarshalMeta cfg sd
        { status := st, raw := raw, err := errv } =
      match st with
      | some cs => .ok (getContainerdInfo fmtRFC3339 cs sd)
      | none => .error ("unknown container manager found: " ++
          sd.annots "io.container.manager") := by
  cases st <;> simp [classifyContainer, h1, h2]

/-- Witness for C10: with a failed read that still produced a record,
classification proceeds as containerd and the read error is nowhere in
the result. -/
theorem classifyContainer_discards_status_read_error_witness :
    classifyContainer fmtSample umSample sampleConfig containerdSpec
        { status := some { createdAt := 7 }, raw := "",
          err := some "read failed: corrupt status" } =
      .ok (getContainerdInfo fmtSample { createdAt := 7 } containerdSpec) :=
  classifyContainer_discards_status_read_error fmtSample umSample sampleConfig
    containerdSpec (some { createdAt := 7 }) "" (some "read failed: corrupt status")
    (by decide) (by decide)

mutual

/-- On a subtree with no failing entry the walk returns the subtree's
total file size. -/
theorem dirSize_eq_of_clean : ∀ t : FsTree, cleanTree t = true →
    dirSize t = .ok (totalSize t)
  | .file s, _ => rfl
  | .errEntry m, h => by simp [cleanTree] at h
  | .dir es, h => by
      have h2 : cleanTreeList es = true := by simpa [cleanTree] using h
      simp [dirSize, totalSize, dirSizeList_eq_of_clean es h2]

/-- On a list of clean subtrees the walk returns the sum of their total
file sizes. -/
theorem dirSizeList_eq_of_clean : ∀ ts : List FsTree, cleanTreeList ts = true →
    dirSizeList ts = .ok (totalSizeList ts)
  | [], _ => rfl
  | t :: ts, h => by
      have h2 : cleanTree t = true ∧ cleanTreeList ts = true := by
        simpa [cleanTreeList, Bool.and_eq_true] using h
      simp [dirSizeList, totalSizeList, dirSize_eq_of_clean t h2.1,
        dirSizeList_eq_of_clean ts h2.2]

end

mutual

/-- A subtree with a failing entry makes the walk fail. -/
theorem dirSize_err_of_not_clean : ∀ t : FsTree, cleanTree t = false →
    ∃ msg, dirSize t = .error msg
  | .file _, h => by simp [cleanTree] at h
  | .errEntry m, _ => ⟨m, rfl⟩
  | .dir es, h => by
      have h2 : cleanTreeList es = false := by simpa [cleanTree] using h
      obtain ⟨m, hm⟩ := dirSizeList_err_of_not_clean es h2
      exact ⟨m, by simp [dirSize, hm]⟩

/-- A list of subtrees with a failing entry makes the walk fail. -/
theorem dirSizeList_err_of_not_clean : ∀ ts : List FsTree, cleanTreeList ts = false →
    ∃ msg, dirSizeList ts = .error msg
  | [], h => by simp [cleanTreeList] at h
  | t :: ts, h => by
      cases hct : cleanTree t with
      | false =>
          obtain ⟨m, hm⟩ := dirSize_err_of_not_clean t hct
          exact ⟨m, by simp [dirSizeList, hm]⟩
      | true =>
          have hts : cleanTreeList ts = false := by
            simpa [cleanTreeList, hct] using h
          obtain ⟨m, hm⟩ := dirSizeList_err_of_not_clean ts hts
          exact ⟨m, by simp [dirSizeList, dirSize_eq_of_clean t hct, hm]⟩

end

/-- C4: on a subtree traversed without error the size calculator returns
the sum of the sizes of all non-directory entries of the subtree
(directories contribute zero); on a subtree whose traversal fails it
returns an error, never a partial sum. -/
theorem dirSize_sums_subtree (t : FsTree) :
    (cleanTree t = true → dirSize t = .ok (totalSize t)) ∧
    (cleanTree t = false → ∃ msg, dirSize t = .error msg) :=
  ⟨dirSize_eq_of_clean t, dirSize_err_of_not_clean t⟩

/-- Witness for C4: files of sizes 10, 20 and 30 bytes in nested
subdirectories sum to 60; a root at which the walk fails (for example a
nonexistent path) yields an error. -/
theorem dirSize_sums_subtree_witness :
    dirSize (.dir [.file 10, .dir [.file 20, .dir [.file 30]]]) = .ok 60 ∧
    (∃ msg, dirSize (.errEntry "lstat: no such file or directory") = .error msg) := by
  constructor
  · have h := (dirSize_sums_subtree (.dir [.file 10, .dir [.file 20, .dir [.file 30]]])).1 rfl
    rw [h]
    congr 1
  · exact (dirSize_sums_subtree (.errEntry "lstat: no such file or directory")).2 rfl

/-- C6: the ID cell of the report row (its third cell) is the first 12
characters of the ID when the ID is longer than 12 characters, and the
full ID otherwise. -/
theorem buildReport_id_cell (byteToString : Int → String) (ci : ContainerInfo)
    (cfg : ContainerConfig) (sz : Int) (rfd : Option Int) :
    ((buildReport byteToString ci cfg sz rfd).2)[2]? = some (idCell cfg.id) ∧
    (12 < cfg.id.length → idCell cfg.id = cfg.id.take 12) ∧
    (cfg.id.length ≤ 12 → idCell cfg.id = cfg.id) := by
  refine ⟨?_, ?_, ?_⟩
  · rcases rfd with _ | sz2 <;>
      by_cases hip : ci.ip = "" <;> by_cases hmac : ci.mac = "" <;>
      simp [buildReport, hip, hmac] <;> split_ifs <;> rfl
  · intro h
    rw [idCell, if_pos h]
  · intro h
    rw [idCell, if_neg (by omega)]

/-- Witness for C6: a 16-character ID is truncated to its first 12
characters, an 8-character ID is unmodified, and the truncated cell is the
third cell of the report row. -/
theorem buildReport_id_cell_witness :
    idCell "0123456789abcdef" = "0123456789abcdef".take 12 ∧
    idCell "01234567" = "01234567" ∧
    ((buildReport toString (getPodmanInfo fmtSample sampleConfig podmanSpec)
        sampleConfig 60 none).2)[2]? = some (idCell "0123456789abcdef") := by
  refine ⟨?_, ?_, ?_⟩
  · exact (buildReport_id_cell toString (getPodmanInfo fmtSample sampleConfig podmanSpec)
      { sampleConfig with id := "0123456789abcdef" } 60 none).2.1 (by decide)
  · exact (buildReport_id_cell toString (getPodmanInfo fmtSample sampleConfig podmanSpec)
      { sampleConfig with id := "01234567" } 60 none).2.2 (by decide)
  · exact (buildReport_id_cell toString (getPodmanInfo fmtSample sampleConfig podmanSpec)
      sampleConfig 60 none).1

/-- C7: the report header carries an `IP` column exactly when the identity
has a non-empty ip, a `MAC` column exactly when it has a non-empty mac,
and the full header is the base columns followed by the optional `IP`,
then the optional `MAC`, then `CHKPT Size`, then the optional root-fs-diff
column. -/
theorem buildReport_optional_ip_mac (byteToString : Int → String) (ci : ContainerInfo)
    (cfg : ContainerConfig) (sz : Int) (rfd : Option Int) :
    ("IP" ∈ (buildReport byteToString ci cfg sz rfd).1 ↔ ci.ip ≠ "") ∧
    ("MAC" ∈ (buildReport byteToString ci cfg sz rfd).1 ↔ ci.mac ≠ "") ∧
    (buildReport byteToString ci cfg sz rfd).1 =
      ["Container", "Image", "ID", "Runtime", "Created", "Engine"] ++
        (if ci.ip ≠ "" then ["IP"] else []) ++
        (if ci.mac ≠ "" then ["MAC"] else []) ++ ["CHKPT Size"] ++
        (match rfd with
         | some sz2 => if sz2 ≠ 0 then ["Root Fs Diff Size"] else []
         | none => []) := by
  rcases rfd with _ | sz2 <;>
    by_cases hip : ci.ip = "" <;> by_cases hmac : ci.mac = "" <;>
    simp [buildReport, hip, hmac] <;> split_ifs <;> simp

/-- C8: the `Root Fs Diff Size` column is present exactly when the
root-fs-diff artifact's `Lstat` succeeded with a non-zero size, in which
case header and row both end with it; a missing or zero-size artifact
adds no column and causes no error. -/
theorem buildReport_rootfs_diff_column (byteToString : Int → String) (ci : ContainerInfo)
    (cfg : ContainerConfig) (sz : Int) (rfd : Option Int) :
    ("Root Fs Diff Size" ∈ (buildReport byteToString ci cfg sz rfd).1 ↔
      ∃ n, rfd = some n ∧ n ≠ 0) ∧
    (∀ n, rfd = some n → n ≠ 0 →
      ((buildReport byteToString ci cfg sz rfd).1).getLast? = some "Root Fs Diff Size" ∧
      ((buildReport byteToString ci cfg sz rfd).2).getLast? = some (byteToString n)) := by
  constructor
  · rcases rfd with _ | sz2 <;>
      by_cases hip : ci.ip = "" <;> by_cases hmac : ci.mac = "" <;>
      simp [buildReport, hip, hmac] <;> split_ifs <;> simp_all
  · rintro n rfl hn
    by_cases hip : ci.ip = "" <;> by_cases hmac : ci.mac = "" <;>
      simp [buildReport, hip, hmac, hn, List.getLast?_concat]

/-- Witness for C8: with an artifact of size 42 the column closes header
and row; with a zero-size or missing artifact it is absent. -/
theorem buildReport_rootfs_diff_column_witness :
    (((buildReport toString (getPodmanInfo fmtSample sampleConfig podmanSpec)
        sampleConfig 60 (some 42)).1).getLast? = some "Root Fs Diff Size" ∧
      ((buildReport toString (getPodmanInfo fmtSample sampleConfig podmanSpec)
        sampleConfig 60 (some 42)).2).getLast? = some (toString (42 : Int))) ∧
    ¬ "Root Fs Diff Size" ∈ (buildReport toString
        (getPodmanInfo fmtSample sampleConfig podmanSpec) sampleConfig 60 (some 0)).1 ∧
    ¬ "Root Fs Diff Size" ∈ (buildReport toString
        (getPodmanInfo fmtSample sampleConfig podmanSpec) sampleConfig 60 none).1 := by
  refine ⟨?_, ?_, ?_⟩
  · exact (buildReport_rootfs_diff_column toString
      (getPodmanInfo fmtSample sampleConfig podmanSpec) sampleConfig 60 (some 42)).2
      42 rfl (by decide)
  · intro hmem
    obtain ⟨n, hn, hn0⟩ := (buildReport_rootfs_diff_column toString
      (getPodmanInfo fmtSample sampleConfig podmanSpec) sampleConfig 60 (some 0)).1.mp hmem
    cases hn
    exact hn0 rfl
  · intro hmem
    obtain ⟨n, hn, _⟩ := (buildReport_rootfs_diff_column toString
      (getPodmanInfo fmtSample sampleConfig podmanSpec) sampleConfig 60 none).1.mp hmem
    cases hn

/-- Header and row of the assembled report always have the same number of
entries: every conditional append adds to both together. -/
theorem buildReport_length_eq (byteToString : Int → String) (ci : ContainerInfo)
    (cfg : ContainerConfig) (sz : Int) (rfd : Option Int) :
    ((buildReport byteToString ci cfg sz rfd).2).length =
      ((buildReport byteToString ci cfg sz rfd).1).length := by
  rcases rfd with _ | sz2 <;>
    by_cases hip : ci.ip = "" <;> by_cases hmac : ci.mac = "" <;>
    simp [buildReport, hip, hmac] <;> split_ifs <;> simp

/-- C9: at hand-off to the presentation sink the number of row cells
equals the number of header labels, both for the assembler on any inputs
and on every successful run of the pipeline. -/
theorem report_row_matches_header (fmtRFC3339 : Int → String)
    (unmarshalMeta : String → Except String ContainerMetadata)
    (byteToString : Int → String) (ci : ContainerInfo) (cfg : ContainerConfig)
    (sz : Int) (rfd : Option Int) (d : CheckpointData) :
    ((buildReport byteToString ci cfg sz rfd).2).length =
      ((buildReport byteToString ci cfg sz rfd).1).length ∧
    (∀ hd row, showContainerCheckpoint fmtRFC3339 unmarshalMeta byteToString d =
        .ok (hd, row) → row.length = hd.length) := by
  refine ⟨buildReport_length_eq byteToString ci cfg sz rfd, ?_⟩
  intro hd row h
  unfold showContainerCheckpoint at h
  split at h
  · exact Except.noConfusion h
  · split at h
    · exact Except.noConfusion h
    · split at h
      · exact Except.noConfusion h
      · split at h
        · exact Except.noConfusion h
        · injection h with h2
          have hfst := congrArg Prod.fst h2
          have hsnd := congrArg Prod.snd h2
          simp only at hfst hsnd
          rw [← hfst, ← hsnd]
          exact buildReport_length_eq _ _ _ _ _

/-- A whole concrete Podman checkpoint fixture. -/
def podmanData : CheckpointData :=
  { configRead := .ok sampleConfig
    specRead := .ok podmanSpec
    statusRead := noStatus
    checkpointSubtree := .dir [.file 10, .dir [.file 20, .dir [.file 30]]]
    rootFsDiffLstat := none }

/-- Witness for C9: the pipeline on a concrete Podman fixture hands off a
row whose length equals the header's. -/
theorem report_row_matches_header_witness :
    (["web", "quay.io/test/img", "0123456789ab", "runc", "T1700000000000000000",
      "Podman", "60"] : List String).length =
    (["Container", "Image", "ID", "Runtime", "Created", "Engine",
      "CHKPT Size"] : List String).length :=
  (report_row_matches_header fmtSample umSample toString
    (getPodmanInfo fmtSample sampleConfig podmanSpec) sampleConfig 60 none podmanData).2
    ["Container", "Image", "ID", "Runtime", "Created", "Engine", "CHKPT Size"]
    ["web", "quay.io/test/img", "0123456789ab", "runc", "T1700000000000000000",
      "Podman", "60"] rfl

/-- Splitting never produces the empty list of parts. -/
theorem splitSlash_ne_nil (cs : List Char) : splitSlash cs ≠ [] := by
  induction cs with
  | nil => simp [splitSlash]
  | cons c cs ih =>
      simp only [splitSlash]
      split
      · simp
      · split <;> simp

/-- Splitting a separator-free string yields that single part. -/
theorem splitSlash_no_slash (a : List Char) (ha : '/' ∉ a) : splitSlash a = [a] := by
  induction a with
  | nil => rfl
  | cons c a ih =>
      have hc : ¬ c = '/' := fun h => ha (h ▸ List.mem_cons_self c a)
      have ha2 : '/' ∉ a := fun h => ha (List.mem_cons_of_mem c h)
      simp only [splitSlash, hc, if_false, ite_false, ih ha2]

/-- Splitting at the first separator peels off the leading part. -/
theorem splitSlash_append_slash (a b : List Char) (ha : '/' ∉ a) :
    splitSlash (a ++ '/' :: b) = a :: splitSlash b := by
  induction a with
  | nil => simp [splitSlash]
  | cons c a ih =>
      have hc : ¬ c = '/' := fun h => ha (h ▸ List.mem_cons_self c a)
      have ha2 : '/' ∉ a := fun h => ha (List.mem_cons_of_mem c h)
      simp only [List.cons_append, splitSlash, hc, ite_false, List.append_eq, ih ha2]

/-- A path component that `Clean` keeps as-is: non-empty, not `.`, not
`..`, and free of separators. -/
abbrev plainComp (c : List Char) : Prop :=
  c ≠ [] ∧ c ≠ ['.'] ∧ c ≠ ['.', '.'] ∧ '/' ∉ c

/-- The `Clean` loop just keeps a run of plain components. -/
theorem cleanLoop_plain (rooted : Bool) (comps out : List (List Char))
    (h : ∀ c ∈ comps, plainComp c) :
    cleanLoop rooted out comps = out.reverse ++ comps := by
  induction comps generalizing out with
  | nil => simp [cleanLoop]
  | cons c cs ih =>
      obtain ⟨h1, h2, h3, _⟩ := h c (List.mem_cons_self c cs)
      have hcs : ∀ x ∈ cs, plainComp x := fun x hx => h x (List.mem_cons_of_mem c hx)
      simp only [cleanLoop, if_neg (show ¬(c = [] ∨ c = ['.']) from by simp [h1, h2]),
        if_neg h3]
      rw [ih (c :: out) hcs]
      simp

/-- `Clean` fixes a relative path made of two plain components. -/
theorem cleanPath_two_plain (a b : List Char) (ha : plainComp a) (hb : plainComp b) :
    cleanPath (a ++ '/' :: b) = a ++ '/' :: b := by
  rcases a with _ | ⟨c, a2⟩
  · exact absurd rfl ha.1
  have hc : ¬ c = '/' := fun h => ha.2.2.2 (h ▸ List.mem_cons_self c a2)
  have hplain : ∀ x ∈ [c :: a2, b], plainComp x := by
    intro x hx
    simp only [List.mem_cons, List.not_mem_nil, or_false] at hx
    rcases hx with rfl | rfl
    · exact ha
    · exact hb
  have hsplit : splitSlash (c :: (a2 ++ '/' :: b)) = [c :: a2, b] := by
    rw [← List.cons_append, splitSlash_append_slash _ _ ha.2.2.2,
      splitSlash_no_slash b hb.2.2.2]
  rw [List.cons_append]
  simp only [cleanPath]
  rw [if_neg hc, hsplit, cleanLoop_plain _ _ [] hplain]
  simp [joinSlash]

/-- `Clean` fixes `../x/y` for plain components `x` and `y`. -/
theorem cleanPath_dotdot_plain (a b : List Char) (ha : plainComp a) (hb : plainComp b) :
    cleanPath ('.' :: '.' :: '/' :: (a ++ '/' :: b)) = '.' :: '.' :: '/' :: (a ++ '/' :: b) := by
  have hplain : ∀ x ∈ [a, b], plainComp x := by
    intro x hx
    simp only [List.mem_cons, List.not_mem_nil, or_false] at hx
    rcases hx with rfl | rfl
    · exact ha
    · exact hb
  have hsplit : splitSlash ('.' :: '.' :: '/' :: (a ++ '/' :: b)) =
      ['.', '.'] :: splitSlash (a ++ '/' :: b) :=
    splitSlash_append_slash ['.', '.'] (a ++ '/' :: b) (by decide)
  have hsplit2 : splitSlash (a ++ '/' :: b) = [a, b] := by
    rw [splitSlash_append_slash _ _ ha.2.2.2, splitSlash_no_slash b hb.2.2.2]
  simp only [cleanPath]
  rw [if_neg (show ¬ ('.' : Char) = '/' from by decide), hsplit, hsplit2]
  rw [show cleanLoop (decide (('.' : Char) = '/')) [] (['.', '.'] :: [a, b]) =
      cleanLoop (decide (('.' : Char) = '/')) [['.', '.']] [a, b] from rfl]
  rw [cleanLoop_plain _ _ [['.', '.']] hplain]
  simp [joinSlash]

/-- C5 (amended): splitting the source path on the separator, a path with
two or fewer parts is returned unmodified; with more than two parts whose
last two are plain components, all but the last two parts collapse to a
single `..` marker joined before them.  In particular `/a/b/c/d` shortens
to `../c/d`, while `/a/b` splits into three parts (a leading empty one,
`a` and `b`) and therefore shortens to `../a/b` rather than being
returned unmodified. -/
theorem shortenPath_components (p : String) :
    ((splitSlash p.toList).length ≤ 2 → shortenPath p = p) ∧
    (∀ a b : List Char, 2 < (splitSlash p.toList).length →
      (splitSlash p.toList).drop ((splitSlash p.toList).length - 2) = [a, b] →
      plainComp a → plainComp b →
      shortenPath p = "../" ++ String.mk a ++ "/" ++ String.mk b) := by
  constructor
  · intro h
    simp only [shortenPath]
    rw [if_pos h]
  · intro a b hlen hdrop ha hb
    simp only [shortenPath]
    rw [if_neg (by omega), hdrop]
    have h1 : filepathJoin [a, b] = a ++ '/' :: b := by
      simp only [filepathJoin, if_neg ha.1]
      rw [show joinSlash [a, b] = a ++ '/' :: b from by simp [joinSlash]]
      exact cleanPath_two_plain a b ha hb
    rw [h1]
    have h2 : filepathJoin [['.', '.'], a ++ '/' :: b] =
        '.' :: '.' :: '/' :: (a ++ '/' :: b) := by
      simp only [filepathJoin,
        if_neg (show ¬(['.', '.'] : List Char) = [] from by decide)]
      rw [show joinSlash [['.', '.'], a ++ '/' :: b] =
        '.' :: '.' :: '/' :: (a ++ '/' :: b) from by simp [joinSlash]]
      exact cleanPath_dotdot_plain a b ha hb
    rw [h2]
    refine String.ext ?_
    simp [String.data_append]

/-- Counterexample to C5 as stated: `/a/b` is not returned unmodified;
Go's split yields the three parts `""`, `"a"`, `"b"`, so the function
returns `../a/b`. -/
theorem shortenPath_slash_a_b :
    shortenPath "/a/b" ≠ "/a/b" ∧ shortenPath "/a/b" = "../a/b" := by
  constructor <;> decide

/-- Witness for C5 (amended): `/a/b/c/d` has five parts and shortens to
`../c/d`; `a/b` has two parts and is returned unmodified. -/
theorem shortenPath_components_witness :
    2 < (splitSlash "/a/b/c/d".toList).length ∧
    shortenPath "/a/b/c/d" = "../" ++ String.mk ['c'] ++ "/" ++ String.mk ['d'] ∧
    shortenPath "a/b" = "a/b" := by
  refine ⟨by decide, ?_, ?_⟩
  · exact (shortenPath_components "/a/b/c/d").2 ['c'] ['d'] (by decide) (by decide)
      (by decide) (by decide)
  · exact (shortenPath_components "a/b").1 (by decide)

end Checkpointctl
